import Mathlib

/-!
Verification of the petal-app-manager I/O bridge subsystem.

This file gives a shallow embedding, in Lean 4, of the parts of
`src/petal_app_manager/proxies/external.py` and
`src/petal_app_manager/proxies/mavlink.py` that the specification talks
about, and proves (or refutes) the specified properties.

Modelling conventions:
* Python `dict` (insertion ordered) is modelled as an association list
  `KMap α := List (String × α)` with unique keys in insertion order.
* `collections.deque(maxlen=m)` is modelled as a `List` together with an
  `Option Nat` capacity; `none` models Python `maxlen=None` (unbounded)
  and `some m` models `maxlen=m` (a full deque evicts its oldest entry
  on append; `some 0` retains nothing, exactly like Python).
* Python callbacks are identified by opaque tokens (`Nat`), mirroring
  identity-based (`list.remove`) handler management.
* Exceptions are modelled with `Except` / explicit error sums.
-/

namespace PetalApp

/-- Association-list model of an insertion-ordered Python `dict` with
`String` keys. -/
abbrev KMap (α : Type) := List (String × α)

/-- Key lookup in an insertion-ordered dict (keys are unique, so the
first match is the binding). -/
def alookup {α : Type} : KMap α → String → Option α
  | [], _ => none
  | (k, v) :: rest, key => if k = key then some v else alookup rest key

/-- Model of `dict.__delitem__`: remove the binding of `key` (keys are
unique, so removing the first occurrence removes the binding). -/
def aerase {α : Type} : KMap α → String → KMap α
  | [], _ => []
  | (k, v) :: rest, key => if k = key then rest else (k, v) :: aerase rest key

/-- Model of assignment `d[key] = v` for a key already present: the
binding keeps its position in insertion order. Absent keys are left
untouched (callers below only use it on present keys). -/
def aset {α : Type} : KMap α → String → α → KMap α
  | [], _, _ => []
  | (k, v) :: rest, key, nv =>
      if k = key then (k, nv) :: rest else (k, v) :: aset rest key nv

namespace ExternalProxy

/-- Model of `collections.deque.append` under a `maxlen` bound:
unbounded (`none`) appends; bounded (`some m`) keeps only the newest
`m` entries, evicting from the left.  `some 0` therefore retains
nothing, exactly like Python's `deque(maxlen=0)`. -/
def dequeAppend {Msg : Type} (maxlen : Option Nat) (dq : List Msg) (x : Msg) : List Msg :=
  match maxlen with
  | none => dq ++ [x]
  | some m => (dq ++ [x]).drop (dq.length + 1 - m)

/-- Embedding of `ExternalProxy.send(self, key, msg)` (external.py lines
95-100): `self._send.setdefault(key, deque(maxlen=self._maxlen)).append(msg)`.
The source `send` takes exactly one message and has no burst parameters. -/
def send {Msg : Type} (maxlen : Option Nat) : KMap (List Msg) → String → Msg → KMap (List Msg)
  | [], key, msg => [(key, dequeAppend maxlen [] msg)]
  | (k, dq) :: rest, key, msg =>
      if k = key then (k, dequeAppend maxlen dq msg) :: rest
      else (k, dq) :: send maxlen rest key msg

/-- Iterated `send`: `n` successive calls of `send` with the same key and
message (the only way to enqueue several copies with the source code). -/
def sendN {Msg : Type} (maxlen : Option Nat) (m : KMap (List Msg)) (key : String) (msg : Msg) : Nat → KMap (List Msg)
  | 0 => m
  | n + 1 => send maxlen (sendN maxlen m key msg n) key msg

/-- Embedding of step 1 of `ExternalProxy._run` (external.py lines
137-143): every deque in `_send` is drained left-to-right into
`pending[key]`; only keys holding at least one message materialise in
`pending` (a `defaultdict` bucket is created by the first append inside
`while dq`). -/
def drainPending {Msg : Type} (sendMap : KMap (List Msg)) : KMap (List Msg) :=
  sendMap.filter (fun kv => !kv.2.isEmpty)

/-- The `_send` map after the drain of `_run`: every key survives, with
its deque emptied. -/
def drainedMap {Msg : Type} (sendMap : KMap (List Msg)) : KMap (List Msg) :=
  sendMap.map (fun kv => (kv.1, ([] : List Msg)))

/-- Embedding of `ExternalProxy.register_handler(self, key, fn)`
(external.py lines 63-69): `self._handlers[key].append(fn)` on a
`defaultdict(list)`.  The source takes no filtering configuration. -/
def register_handler : KMap (List Nat) → String → Nat → KMap (List Nat)
  | [], key, fn => [(key, [fn])]
  | (k, l) :: rest, key, fn =>
      if k = key then (k, l ++ [fn]) :: rest
      else (k, l) :: register_handler rest key fn

/-- Model of `list.remove(fn)`: drop the first occurrence, or report
`none` when absent (Python raises `ValueError`, which
`unregister_handler` catches). -/
def removeFirst : List Nat → Nat → Option (List Nat)
  | [], _ => none
  | x :: xs, fn =>
      if x = fn then some xs
      else (removeFirst xs fn).map (fun l => x :: l)

/-- Embedding of `ExternalProxy.unregister_handler(self, key, fn)`
(external.py lines 71-93): missing key or empty bucket is a silent
no-op; a missing callback is logged and ignored; removing the last
callback deletes the key from the dict. -/
def unregister_handler (m : KMap (List Nat)) (key : String) (fn : Nat) : KMap (List Nat) :=
  match alookup m key with
  | none => m
  | some [] => m
  | some (c :: cs) =>
      match removeFirst (c :: cs) fn with
      | none => m
      | some l => if l = [] then aerase m key else aset m key l

/-- Embedding of step 2 of `ExternalProxy._run` (external.py lines
145-157): for each `(key, msg)` returned by `_io_read_once`, the message
is appended to the bounded `_recv[key]` deque and then every handler
registered under `key` is invoked with `msg` itself (the call does not
go through the deque).  The result is the updated `_recv` map together
with the invocation sequence `(handler, message)` in order. -/
def processInbound {Msg : Type} (maxlen : Option Nat) (handlers : KMap (List Nat)) :
    KMap (List Msg) → List (String × Msg) → KMap (List Msg) × List (Nat × Msg)
  | recvMap, [] => (recvMap, [])
  | recvMap, (key, msg) :: rest =>
      let r1 := send maxlen recvMap key msg
      let res := processInbound maxlen handlers r1 rest
      (res.1, ((alookup handlers key).getD []).map (fun h => (h, msg)) ++ res.2)

end ExternalProxy

namespace MavLinkExternalProxy

/-- Joint proxy state used by `send_and_wait`: the deque bound, the
outbound `_send` map, and the handler registry `_handlers`. -/
structure St (Msg : Type) where
  maxlen : Option Nat
  sendq : KMap (List Msg)
  handlers : KMap (List Nat)

/-- Embedding of `MavLinkExternalProxy._io_write_once(self, batches)`
(external.py lines 223-235): with no open connection nothing happens;
otherwise every bucket of `batches` is iterated in order and every
message in it is handed to `self.master.mav.send`.  A transmit failure
(modelled by `ok msg = false`) is logged and the loop continues.  The
result records, in order, each attempted message with its outcome; the
function is total, so no failure propagates to the caller. -/
def _io_write_once {Msg : Type} (master : Bool) (ok : Msg → Bool) (batches : KMap (List Msg)) : List (Msg × Bool) :=
  if master = false then []
  else batches.foldl (fun acc kv => kv.2.foldl (fun a m => a ++ [(m, ok m)]) acc) []

/-- Embedding of `MavLinkExternalProxy.send_and_wait` (external.py lines
292-337).  `hid` identifies the locally created `_handler` closure;
`satisfied` tells whether `done.wait(timeout)` observed the collector
returning `True` within the timeout.  The returned `Bool` is `true`
exactly when the call raises `TimeoutError`.  In both branches the
temporary handler is unregistered before returning/raising. -/
def send_and_wait {Msg : Type} (st : St Msg) (matchKey : String) (reqMsg : Msg) (hid : Nat) (satisfied : Bool) : St Msg × Bool :=
  let st1 : St Msg := { st with sendq := ExternalProxy.send st.maxlen st.sendq "mav" reqMsg }
  let st2 : St Msg := { st1 with handlers := ExternalProxy.register_handler st1.handlers matchKey hid }
  let st3 : St Msg := { st2 with handlers := ExternalProxy.unregister_handler st2.handlers matchKey hid }
  (st3, !satisfied)

end MavLinkExternalProxy

namespace MavLink

/-- The per-id metadata of `_BlockingParser.entries`
(mavlink.py: a dict id -> a dict holding size and utc). -/
structure EntryInfo where
  size : Int
  utc : Int
deriving DecidableEq, Repr

/-- Stable insertion of a `(name, size)` file pair into a list already
sorted by size descending: the element goes after every earlier element
of greater-or-equal size, exactly where Python's stable
`sorted(key=size, reverse=True)` puts it. -/
def insertFileDesc (x : String × Int) : List (String × Int) → List (String × Int)
  | [] => [x]
  | y :: ys => if x.2 > y.2 then x :: y :: ys else y :: insertFileDesc x ys

/-- Model of `sorted([(n, s) for n, s in ls_list], key=lambda x: x[1], reverse=True)`:
a stable sort by size descending. -/
def sortFilesDesc (l : List (String × Int)) : List (String × Int) :=
  l.foldl (fun acc x => insertFileDesc x acc) []

/-- Stable insertion of an `(id, info)` pair into a list already sorted
by id ascending. -/
def insertEntryById (x : Nat × EntryInfo) : List (Nat × EntryInfo) → List (Nat × EntryInfo)
  | [] => [x]
  | y :: ys => if x.1 < y.1 then x :: y :: ys else y :: insertEntryById x ys

/-- Model of `sorted(entry_dict.items())` in `_match_ls_to_entries`:
dict items sorted by key, i.e. by log id ascending (ids are unique dict
keys, so the tuple comparison never reaches the second component). -/
def sortEntriesById (l : List (Nat × EntryInfo)) : List (Nat × EntryInfo) :=
  l.foldl (fun acc x => insertEntryById x acc) []

/-- Model of the inner `for i, (name, sz) in enumerate(files)` scan of
`_match_ls_to_entries`: index of the first file whose size is within
`t` of `size`, if any. -/
def findIdxWithin (size t : Int) : List (String × Int) → Option Nat
  | [] => none
  | f :: fs =>
      if |f.2 - size| ≤ t then some 0
      else (findIdxWithin size t fs).map (fun i => i + 1)

/-- The matching loop of `_match_ls_to_entries` (mavlink.py lines
270-276): for each `(log_id, info)` in entry order, scan `files` for the
first entry within tolerance, `pop` it and record
`mapping[log_id] = (name, sz, info.utc)`; entries with no match are
silently skipped. -/
def matchLoop : List (Nat × EntryInfo) → List (String × Int) → Int → List (Nat × String × Int × Int)
  | [], _, _ => []
  | (logId, info) :: es, files, t =>
      match findIdxWithin info.size t files with
      | none => matchLoop es files t
      | some i =>
          match files[i]? with
          | none => matchLoop es files t
          | some f => (logId, f.1, f.2, info.utc) :: matchLoop es (files.eraseIdx i) t

/-- Embedding of `_match_ls_to_entries(ls_list, entry_dict, threshold_size=4096)`
(mavlink.py lines 261-277): sort the files by size descending, sort the
dict items by id ascending, fail when the counts differ, else run the
greedy first-fit consume loop.  The resulting association list models
the Python `mapping` dict in insertion order. -/
def _match_ls_to_entries (ls_list : List (String × Int)) (entry_dict : List (Nat × EntryInfo)) (threshold_size : Int) : Except String (List (Nat × String × Int × Int)) :=
  let files := sortFilesDesc ls_list
  let entries := sortEntriesById entry_dict
  if files.length ≠ entries.length then
    Except.error "ls and entry counts differ; cannot match safely"
  else
    Except.ok (matchLoop entries files threshold_size)

/-- Stable insertion by utc ascending, for the final
`result.sort(key=lambda x: x["utc"])`. -/
def insertByUtc (x : String × Int × Int) : List (String × Int × Int) → List (String × Int × Int)
  | [] => [x]
  | y :: ys => if x.2.2 < y.2.2 then x :: y :: ys else y :: insertByUtc x ys

/-- Model of `list.sort(key=lambda x: x["utc"])`: stable sort ascending
by the recorded utc. -/
def sortByUtc (l : List (String × Int × Int)) : List (String × Int × Int) :=
  l.foldl (fun acc x => insertByUtc x acc) []

/-- Embedding of `_BlockingParser.list_ulogs` (mavlink.py lines 175-192)
with the directory walk abstracted into its result `ulog_files`: when
the walk yields nothing the function returns `[]` immediately, before
the matching step; otherwise the walk results are matched against the
stored index and the mapping values (in dict insertion order) are
emitted as `(remote_path, size_bytes, utc)` records sorted ascending by
utc. -/
def list_ulogs (ulog_files : List (String × Int)) (entries : List (Nat × EntryInfo)) : Except String (List (String × Int × Int)) :=
  if ulog_files.isEmpty then Except.ok []
  else
    match _match_ls_to_entries ulog_files entries 4096 with
    | Except.error e => Except.error e
    | Except.ok mapping =>
        Except.ok (sortByUtc (mapping.map (fun r => (r.2.1, r.2.2.1, r.2.2.2))))

/-- Error outcomes of a `_ls` call. -/
inductive LsErr where
  /-- `RuntimeError` raised after the retry loop is exhausted. -/
  | runtimeExhausted : LsErr
  /-- `TypeError` raised by the soft-reconnect call
  `self.__init__(self.master.address, self.master.baud, self.ftp.ftp_settings.debug)`
  (mavlink.py line 253): `_BlockingParser.__init__` (line 146) declares
  four required parameters `(endpoint, baud, debug, log_entries)`, but
  the call supplies only three values, so Python rejects the call before
  running the body. -/
  | typeErr : LsErr
deriving DecidableEq, Repr

/-- Embedding of `_BlockingParser._ls(self, path, retries=5, delay=2.0)`
(mavlink.py lines 246-254), with the I/O abstracted into the list of
outcomes the successive `self.ftp.cmd_list([path])` attempts would
produce (`some listing` for `ack.return_code == 0`, `none` otherwise).
A successful attempt returns its listing; a failed attempt sleeps and
then soft-reconnects by re-invoking the constructor on `self`, and that
call raises `TypeError` (see `LsErr.typeErr`), aborting the loop; an
empty outcome list means the loop finished all its iterations and the
final `RuntimeError` is raised. -/
def ls_run {α : Type} : List (Option α) → Except LsErr α
  | [] => Except.error LsErr.runtimeExhausted
  | some v :: _ => Except.ok v
  | none :: _ => Except.error LsErr.typeErr

/-- Number of listing attempts `_ls` makes by default. -/
def lsRetries : Nat := 5

/-- Timestamp-bearing fields a status reply may carry, in the priority
order of the specification: `time_utc` (absolute UTC seconds),
`time_boot_ms` (boot-relative milliseconds), `time_usec` (boot-relative
microseconds), `timestamp` (the fallback capture-time field). -/
structure StatusMsg where
  time_utc : Option Int
  time_boot_ms : Option Int
  time_usec : Option Int
  timestamp : Option Int
deriving DecidableEq, Repr

/-- Error surface of `get_px4_time`: `timeout` when no reply arrives
within the bound, `validation` when the reply carries no
timestamp-bearing field. -/
inductive PxErr where
  | timeout : PxErr
  | validation : PxErr
deriving DecidableEq, Repr

/-- Result record of `get_px4_time` (mavlink.py `Px4Time`): epoch
seconds and the name of the field that carried the timestamp. -/
structure Px4Time where
  timestamp_s : Int
  source_msg : String
deriving DecidableEq, Repr

/-- Modelled from the spec: `_BlockingParser.get_px4_time` is missing
from `src/` (only its caller `MavLinkProxy.get_px4_time`, mavlink.py
lines 128-130, and the repository tests reference it).  Per the spec,
the helper requests a single status message; `reply` is the message
received within the bound, if any, and `captureBoot` is the local
capture time expressed as the boot epoch used to convert boot-relative
values to absolute.  The first present field in the priority order
`time_utc`, `time_boot_ms`, `time_usec`, `timestamp` supplies the
timestamp; boot-relative values are converted to absolute seconds from
the local capture time; no reply raises a timeout error and a reply
with no admissible field raises a validation error. -/
def get_px4_time (reply : Option StatusMsg) (captureBoot : Int) : Except PxErr Px4Time :=
  match reply with
  | none => Except.error PxErr.timeout
  | some m =>
      match m.time_utc with
      | some t => Except.ok ⟨t, "time_utc"⟩
      | none =>
          match m.time_boot_ms with
          | some b => Except.ok ⟨captureBoot + b / 1000, "time_boot_ms"⟩
          | none =>
              match m.time_usec with
              | some u => Except.ok ⟨captureBoot + u / 1000000, "time_usec"⟩
              | none =>
                  match m.timestamp with
                  | some ts => Except.ok ⟨ts, "_timestamp"⟩
                  | none => Except.error PxErr.validation

/-- Stable insertion of an `(id, info)` pair into a list already sorted
by size descending (used only to state the specification's version of
the matching algorithm). -/
def insertEntryBySizeDesc (x : Nat × EntryInfo) : List (Nat × EntryInfo) → List (Nat × EntryInfo)
  | [] => [x]
  | y :: ys => if x.2.size > y.2.size then x :: y :: ys else y :: insertEntryBySizeDesc x ys

/-- The entry ordering the specification prescribes for log matching:
sorted by size descending (the source instead sorts by id ascending). -/
def sortEntriesBySizeDesc (l : List (Nat × EntryInfo)) : List (Nat × EntryInfo) :=
  l.foldl (fun acc x => insertEntryBySizeDesc x acc) []

/-- The specification's phrasing of the inner step: scan the remaining
files for the first whose size is within tolerance and consume it,
returning the consumed file and the remaining scan list. -/
def consumeFirstWithin (size t : Int) : List (String × Int) → Option ((String × Int) × List (String × Int))
  | [] => none
  | f :: fs =>
      if |f.2 - size| ≤ t then some (f, fs)
      else (consumeFirstWithin size t fs).map (fun p => (p.1, f :: p.2))

/-- The specification's phrasing of the matching loop: for each index
entry in order, scan the remaining files for the first within
tolerance, consume it and record the pair. -/
def matchScan : List (Nat × EntryInfo) → List (String × Int) → Int → List (Nat × String × Int × Int)
  | [], _, _ => []
  | (logId, info) :: es, files, t =>
      match consumeFirstWithin info.size t files with
      | none => matchScan es files t
      | some (f, rest) => (logId, f.1, f.2, info.utc) :: matchScan es rest t

/-- The matching algorithm exactly as the specification words it (claim
C4): sort BOTH lists by size descending, then greedy first-fit with
consumption. -/
def spec_match_both_desc (ls_list : List (String × Int)) (entry_dict : List (Nat × EntryInfo)) (threshold_size : Int) : Except String (List (Nat × String × Int × Int)) :=
  let files := sortFilesDesc ls_list
  let entries := sortEntriesBySizeDesc entry_dict
  if files.length ≠ entries.length then
    Except.error "ls and entry counts differ; cannot match safely"
  else
    Except.ok (matchScan entries files threshold_size)

/-- The amended algorithm statement: files sorted by size descending,
entries sorted by id ascending (dict-key order), then greedy first-fit
scan with consumption. -/
def amended_match_spec (ls_list : List (String × Int)) (entry_dict : List (Nat × EntryInfo)) (threshold_size : Int) : Except String (List (Nat × String × Int × Int)) :=
  let files := sortFilesDesc ls_list
  let entries := sortEntriesById entry_dict
  if files.length ≠ entries.length then
    Except.error "ls and entry counts differ; cannot match safely"
  else
    Except.ok (matchScan entries files threshold_size)

end MavLink

/-! ## Supporting lemmas -/

namespace ExternalProxy

theorem dequeAppend_none {Msg : Type} (dq : List Msg) (x : Msg) :
    dequeAppend none dq x = dq ++ [x] := rfl

theorem dequeAppend_zero {Msg : Type} (dq : List Msg) (x : Msg) :
    dequeAppend (some 0) dq x = [] := by
  have h : (dq ++ [x]).length = dq.length + 1 := by simp
  simp only [dequeAppend, Nat.sub_zero]
  rw [← h, List.drop_length]

theorem alookup_send {Msg : Type} (maxlen : Option Nat) (m : KMap (List Msg)) (key : String) (msg : Msg) :
    alookup (send maxlen m key msg) key =
      some (dequeAppend maxlen ((alookup m key).getD []) msg) := by
  induction m with
  | nil => simp [send, alookup]
  | cons kv rest ih =>
      obtain ⟨k, dq⟩ := kv
      by_cases hk : k = key
      · subst hk
        simp [send, alookup]
      · simp [send, alookup, hk, ih]

theorem alookup_send_ne {Msg : Type} (maxlen : Option Nat) (m : KMap (List Msg)) (key k' : String) (msg : Msg) (hne : k' ≠ key) :
    alookup (send maxlen m key msg) k' = alookup m k' := by
  have hne' : ¬ (key = k') := fun h => hne h.symm
  induction m with
  | nil => simp [send, alookup, hne']
  | cons kv rest ih =>
      obtain ⟨k, dq⟩ := kv
      by_cases hk : k = key
      · subst hk
        simp [send, alookup, hne']
      · by_cases hk' : k = k'
        · subst hk'
          simp [send, alookup, hk]
        · simp [send, alookup, hk, hk', ih]

theorem send_zero_buckets {Msg : Type} (m : KMap (List Msg)) (key : String) (msg : Msg)
    (hm : ∀ kv ∈ m, kv.2 = ([] : List Msg)) :
    ∀ kv ∈ send (some 0) m key msg, kv.2 = ([] : List Msg) := by
  induction m with
  | nil =>
      intro kv hkv
      simp [send] at hkv
      subst hkv
      simp [dequeAppend_zero]
  | cons kv0 rest ih =>
      obtain ⟨k, dq⟩ := kv0
      by_cases hk : k = key
      · subst hk
        intro kv hkv
        simp [send] at hkv
        rcases hkv with h | h
        · subst h; simp [dequeAppend_zero]
        · exact hm kv (List.mem_cons_of_mem _ h)
      · intro kv hkv
        simp [send, hk] at hkv
        rcases hkv with h | h
        · subst h
          exact hm (k, dq) (List.mem_cons_self _ _)
        · exact ih (fun kv' h' => hm kv' (List.mem_cons_of_mem _ h')) kv h

theorem foldl_send_zero_buckets {Msg : Type} (ops : List (String × Msg)) :
    ∀ m : KMap (List Msg), (∀ kv ∈ m, kv.2 = ([] : List Msg)) →
      ∀ kv ∈ ops.foldl (fun acc op => send (some 0) acc op.1 op.2) m, kv.2 = ([] : List Msg) := by
  induction ops with
  | nil => intro m hm; simpa using hm
  | cons op rest ih =>
      intro m hm
      exact ih (send (some 0) m op.1 op.2) (send_zero_buckets m op.1 op.2 hm)

theorem drainPending_of_empty_buckets {Msg : Type} (m : KMap (List Msg))
    (hm : ∀ kv ∈ m, kv.2 = ([] : List Msg)) :
    drainPending m = [] := by
  induction m with
  | nil => rfl
  | cons kv rest ih =>
      have h2 : kv.2 = ([] : List Msg) := hm kv (List.mem_cons_self _ _)
      simp [drainPending, List.filter, h2]
      have := ih (fun kv' h' => hm kv' (List.mem_cons_of_mem _ h'))
      simpa [drainPending] using this

theorem alookup_of_empty_buckets {Msg : Type} (m : KMap (List Msg))
    (hm : ∀ kv ∈ m, kv.2 = ([] : List Msg)) (k : String) :
    alookup m k = none ∨ alookup m k = some [] := by
  induction m with
  | nil => left; rfl
  | cons kv rest ih =>
      obtain ⟨k0, dq⟩ := kv
      have h2 : dq = [] := hm (k0, dq) (List.mem_cons_self _ _)
      by_cases hk : k0 = k
      · right; simp [alookup, hk, h2]
      · simpa [alookup, hk] using ih (fun kv' h' => hm kv' (List.mem_cons_of_mem _ h'))

theorem removeFirst_append_of_not_mem (l : List Nat) (fn : Nat) (h : fn ∉ l) :
    removeFirst (l ++ [fn]) fn = some l := by
  induction l with
  | nil => simp [removeFirst]
  | cons x xs ih =>
      have hx : x ≠ fn := by
        intro he; exact h (he ▸ List.mem_cons_self _ _)
      have hxs : fn ∉ xs := fun hm => h (List.mem_cons_of_mem _ hm)
      simp [removeFirst, hx, ih hxs]

theorem unregister_cons_ne (k key : String) (l : List Nat) (rest : KMap (List Nat)) (fn : Nat)
    (hk : k ≠ key) :
    unregister_handler ((k, l) :: rest) key fn = (k, l) :: unregister_handler rest key fn := by
  have hlook : alookup ((k, l) :: rest) key = alookup rest key := by
    simp [alookup, hk]
  cases hres : alookup rest key with
  | none => simp [unregister_handler, hlook, hres]
  | some cb =>
      cases cb with
      | nil => simp [unregister_handler, hlook, hres]
      | cons c cs =>
          cases hrm : removeFirst (c :: cs) fn with
          | none => simp [unregister_handler, hlook, hres, hrm]
          | some l' =>
              by_cases hl' : l' = []
              · simp [unregister_handler, hlook, hres, hrm, hl', aerase, hk]
              · simp [unregister_handler, hlook, hres, hrm, hl', aset, hk]

theorem unregister_register (m : KMap (List Nat)) (key : String) (fn : Nat)
    (hfresh : ∀ l, alookup m key = some l → fn ∉ l ∧ l ≠ []) :
    unregister_handler (register_handler m key fn) key fn = m := by
  induction m with
  | nil =>
      simp [register_handler, unregister_handler, alookup, removeFirst, aerase]
  | cons kv rest ih =>
      obtain ⟨k, l⟩ := kv
      by_cases hk : k = key
      · subst hk
        have hl := hfresh l (by simp [alookup])
        obtain ⟨hfn, hne⟩ := hl
        cases l with
        | nil => exact absurd rfl hne
        | cons c cs =>
            have hrm : removeFirst ((c :: cs) ++ [fn]) fn = some (c :: cs) :=
              removeFirst_append_of_not_mem (c :: cs) fn hfn
            simp [register_handler, unregister_handler, alookup] at hrm ⊢
            simp [hrm, aset]
      · have hlook : alookup ((k, l) :: rest) key = alookup rest key := by
          simp [alookup, hk]
        have hrest : ∀ l', alookup rest key = some l' → fn ∉ l' ∧ l' ≠ [] := by
          intro l' h'
          exact hfresh l' (hlook ▸ h')
        calc unregister_handler (register_handler ((k, l) :: rest) key fn) key fn
            = unregister_handler ((k, l) :: register_handler rest key fn) key fn := by
              simp [register_handler, hk]
          _ = (k, l) :: unregister_handler (register_handler rest key fn) key fn :=
              unregister_cons_ne k key l _ fn hk
          _ = (k, l) :: rest := by rw [ih hrest]

end ExternalProxy

namespace MavLink

theorem length_insertFileDesc (x : String × Int) (l : List (String × Int)) :
    (insertFileDesc x l).length = l.length + 1 := by
  induction l with
  | nil => rfl
  | cons y ys ih =>
      by_cases h : x.2 > y.2
      · simp [insertFileDesc, h]
      · simp [insertFileDesc, h, ih]

theorem length_sortFilesDesc (l : List (String × Int)) :
    (sortFilesDesc l).length = l.length := by
  suffices h : ∀ acc : List (String × Int),
      (l.foldl (fun acc x => insertFileDesc x acc) acc).length = acc.length + l.length by
    simpa using h []
  induction l with
  | nil => intro acc; simp
  | cons y ys ih =>
      intro acc
      simp [List.foldl, ih, length_insertFileDesc]
      omega

theorem length_insertEntryById (x : Nat × EntryInfo) (l : List (Nat × EntryInfo)) :
    (insertEntryById x l).length = l.length + 1 := by
  induction l with
  | nil => rfl
  | cons y ys ih =>
      by_cases h : x.1 < y.1
      · simp [insertEntryById, h]
      · simp [insertEntryById, h, ih]

theorem length_sortEntriesById (l : List (Nat × EntryInfo)) :
    (sortEntriesById l).length = l.length := by
  suffices h : ∀ acc : List (Nat × EntryInfo),
      (l.foldl (fun acc x => insertEntryById x acc) acc).length = acc.length + l.length by
    simpa using h []
  induction l with
  | nil => intro acc; simp
  | cons y ys ih =>
      intro acc
      simp [List.foldl, ih, length_insertEntryById]
      omega

theorem matchLoop_aligned :
    ∀ (es : List (Nat × EntryInfo)) (fs : List (String × Int)) (t : Int),
      es.length = fs.length →
      (∀ i, i < es.length →
        |(fs.getD i ("", 0)).2 - (es.getD i (0, ⟨0, 0⟩)).2.size| ≤ t) →
      matchLoop es fs t = List.zipWith (fun e f => (e.1, f.1, f.2, e.2.utc)) es fs := by
  intro es
  induction es with
  | nil => intro fs t _ _; simp [matchLoop]
  | cons e es' ih =>
      intro fs t hlen halign
      cases fs with
      | nil => simp at hlen
      | cons f fs' =>
          have h0 : |f.2 - e.2.size| ≤ t := by
            have := halign 0 (by simp)
            simpa using this
          have hlen' : es'.length = fs'.length := by
            simpa using hlen
          have halign' : ∀ i, i < es'.length →
              |(fs'.getD i ("", 0)).2 - (es'.getD i (0, ⟨0, 0⟩)).2.size| ≤ t := by
            intro i hi
            have := halign (i + 1) (by simpa using Nat.succ_lt_succ hi)
            simpa using this
          obtain ⟨eid, einfo⟩ := e
          simp only [matchLoop, findIdxWithin]
          rw [if_pos h0]
          simp [List.eraseIdx, ih fs' t hlen' halign']

theorem consumeFirstWithin_of_findIdxWithin :
    ∀ (fs : List (String × Int)) (size t : Int),
      (findIdxWithin size t fs = none ∧ consumeFirstWithin size t fs = none) ∨
      (∃ i f, findIdxWithin size t fs = some i ∧ fs[i]? = some f ∧
        consumeFirstWithin size t fs = some (f, fs.eraseIdx i)) := by
  intro fs
  induction fs with
  | nil => intro size t; left; exact ⟨rfl, rfl⟩
  | cons f fs' ih =>
      intro size t
      by_cases h : |f.2 - size| ≤ t
      · right
        exact ⟨0, f, by simp [findIdxWithin, h], by simp, by simp [consumeFirstWithin, h, List.eraseIdx]⟩
      · rcases ih size t with ⟨h1, h2⟩ | ⟨i, g, h1, h2, h3⟩
        · left
          constructor
          · simp [findIdxWithin, h, h1]
          · simp [consumeFirstWithin, h, h2]
        · right
          refine ⟨i + 1, g, ?_, ?_, ?_⟩
          · simp [findIdxWithin, h, h1]
          · simpa using h2
          · simp [consumeFirstWithin, h, h3, List.eraseIdx]

theorem matchLoop_eq_matchScan :
    ∀ (es : List (Nat × EntryInfo)) (fs : List (String × Int)) (t : Int),
      matchLoop es fs t = matchScan es fs t := by
  intro es
  induction es with
  | nil => intro fs t; rfl
  | cons e es' ih =>
      intro fs t
      obtain ⟨eid, einfo⟩ := e
      rcases consumeFirstWithin_of_findIdxWithin fs einfo.size t with ⟨h1, h2⟩ | ⟨i, g, h1, h2, h3⟩
      · simp [matchLoop, matchScan, h1, h2, ih]
      · simp [matchLoop, matchScan, h1, h2, h3, ih]

theorem zipWith_map_ids :
    ∀ (es : List (Nat × EntryInfo)) (fs : List (String × Int)),
      es.length = fs.length →
      (List.zipWith (fun e f => (e.1, f.1, f.2, e.2.utc)) es fs).map (fun r => r.1) =
        es.map Prod.fst := by
  intro es
  induction es with
  | nil => intro fs _; simp
  | cons e es' ih =>
      intro fs hlen
      cases fs with
      | nil => simp at hlen
      | cons f fs' => simp [ih fs' (by simpa using hlen)]

theorem zipWith_map_files :
    ∀ (es : List (Nat × EntryInfo)) (fs : List (String × Int)),
      es.length = fs.length →
      (List.zipWith (fun e f => (e.1, f.1, f.2, e.2.utc)) es fs).map (fun r => (r.2.1, r.2.2.1)) =
        fs := by
  intro es
  induction es with
  | nil =>
      intro fs hlen
      cases fs with
      | nil => simp
      | cons f fs' => simp at hlen
  | cons e es' ih =>
      intro fs hlen
      cases fs with
      | nil => simp at hlen
      | cons f fs' => simp [ih fs' (by simpa using hlen)]

end MavLink

/-! ## Claim theorems -/

/-- Claim C1 (evidence for the code bug).  The source
`ExternalProxy.send(self, key, msg)` has no `burst_count` or
`burst_interval` parameter at all (the repository's own tests call
`send(key, msg, burst_count=3)` and would fail with `TypeError`), and a
single call enqueues exactly one copy: the bucket grows by `[msg]`, and
`c + 1` successive calls are required to enqueue `c + 1` copies, which
then sit in the outbound bucket in submission order. -/
theorem c1_send_has_no_burst {Msg : Type} (m : KMap (List Msg)) (key : String) (msg : Msg) :
    alookup (ExternalProxy.send none m key msg) key =
      some ((alookup m key).getD [] ++ [msg])
    ∧ ∀ c : Nat, alookup (ExternalProxy.sendN none m key msg (c + 1)) key =
        some ((alookup m key).getD [] ++ List.replicate (c + 1) msg) := by
  constructor
  · rw [ExternalProxy.alookup_send]
    rfl
  · intro c
    induction c with
    | zero =>
        show alookup (ExternalProxy.send none m key msg) key = _
        rw [ExternalProxy.alookup_send]
        simp [ExternalProxy.dequeAppend]
    | succ n ih =>
        show alookup (ExternalProxy.send none (ExternalProxy.sendN none m key msg (n + 1)) key msg) key = _
        rw [ExternalProxy.alookup_send, ih]
        simp [ExternalProxy.dequeAppend, List.replicate_succ']

/-- Claim C2 (evidence for the code bug).  The source
`ExternalProxy.register_handler(self, key, fn)` takes no
`duplicate_filter_interval` and `_run` keeps no duplicate state: the
dispatch step of `_run` invokes every registered handler for every
inbound message, so two identical messages delivered back-to-back (an
arbitrarily small interval) invoke the handler twice, never once. -/
theorem c2_dispatch_has_no_duplicate_filter {Msg : Type} (maxlen : Option Nat) (recvMap : KMap (List Msg)) (key : String) (h : Nat) (msg : Msg) :
    (ExternalProxy.processInbound maxlen [(key, [h])] recvMap [(key, msg), (key, msg)]).2 =
      [(h, msg), (h, msg)] := by
  simp [ExternalProxy.processInbound, alookup]

/-- Claim C9.  With `maxlen = 0` (modelled as `some 0`, since Python's
`deque(maxlen=0)` retains nothing even though the constructor docstring
calls 0 unbounded): every `send` leaves its bucket empty, so after any
sequence of sends every outbound bucket is empty and the drain step of
`_run` produces no batches, while inbound dispatch still invokes the
registered handler because the handler receives the message directly,
not through the capacity-0 deque. -/
theorem c9_maxlen_zero_drops_sends_but_dispatches {Msg : Type} (ops : List (String × Msg)) (key : String) (h : Nat) (msg : Msg) (recvMap : KMap (List Msg)) :
    (∀ m : KMap (List Msg), ∀ k,
      alookup (ExternalProxy.send (some 0) m k msg) k = some [])
    ∧ (∀ k, alookup (ops.foldl (fun acc op => ExternalProxy.send (some 0) acc op.1 op.2) ([] : KMap (List Msg))) k = none
        ∨ alookup (ops.foldl (fun acc op => ExternalProxy.send (some 0) acc op.1 op.2) ([] : KMap (List Msg))) k = some [])
    ∧ ExternalProxy.drainPending (ops.foldl (fun acc op => ExternalProxy.send (some 0) acc op.1 op.2) ([] : KMap (List Msg))) = []
    ∧ (ExternalProxy.processInbound (some 0) [(key, [h])] recvMap [(key, msg)]).2 = [(h, msg)] := by
  have hemp : ∀ kv ∈ ops.foldl (fun acc op => ExternalProxy.send (some 0) acc op.1 op.2) ([] : KMap (List Msg)), kv.2 = ([] : List Msg) :=
    ExternalProxy.foldl_send_zero_buckets ops [] (by intro kv hkv; simp at hkv)
  refine ⟨?_, ?_, ?_, ?_⟩
  · intro m k
    rw [ExternalProxy.alookup_send, ExternalProxy.dequeAppend_zero]
  · intro k
    exact ExternalProxy.alookup_of_empty_buckets _ hemp k
  · exact ExternalProxy.drainPending_of_empty_buckets _ hemp
  · simp [ExternalProxy.processInbound, alookup]

/-- Claim C6.  `send_and_wait` enqueues the request on the generic
`"mav"` channel, registers the temporary handler on `match_key`, and in
both outcomes (collector satisfied, or timeout with `TimeoutError`
raised) unregisters it again: provided the temporary handler token is
fresh (the closure is newly created at each call) the handler registry
afterwards equals the registry before, so no residual handler remains
and a bucket created for the key is removed. -/
theorem c6_send_and_wait_no_residual_handler {Msg : Type} (st : MavLinkExternalProxy.St Msg) (matchKey : String) (req : Msg) (hid : Nat) (sat : Bool)
    (hfresh : ∀ l, alookup st.handlers matchKey = some l → hid ∉ l ∧ l ≠ []) :
    (MavLinkExternalProxy.send_and_wait st matchKey req hid sat).1.handlers = st.handlers
    ∧ (MavLinkExternalProxy.send_and_wait st matchKey req hid sat).1.sendq =
        ExternalProxy.send st.maxlen st.sendq "mav" req
    ∧ alookup (MavLinkExternalProxy.send_and_wait st matchKey req hid sat).1.sendq "mav" =
        some (ExternalProxy.dequeAppend st.maxlen ((alookup st.sendq "mav").getD []) req)
    ∧ (MavLinkExternalProxy.send_and_wait st matchKey req hid sat).2 = !sat := by
  refine ⟨?_, rfl, ?_, rfl⟩
  · exact ExternalProxy.unregister_register st.handlers matchKey hid hfresh
  · exact ExternalProxy.alookup_send st.maxlen st.sendq "mav" req

/-- Witness for C6: a concrete `send_and_wait` run (fresh handler token
1, satisfied collector) on an empty proxy state: the hypotheses hold,
the registry bucket for the key is gone afterwards, and no timeout
error is raised. -/
theorem c6_witness :
    (∀ l, alookup (([] : KMap (List Nat))) "147" = some l → (1 : Nat) ∉ l ∧ l ≠ [])
    ∧ (MavLinkExternalProxy.send_and_wait (⟨none, [], []⟩ : MavLinkExternalProxy.St Nat) "147" 7 1 true).1.handlers = []
    ∧ (MavLinkExternalProxy.send_and_wait (⟨none, [], []⟩ : MavLinkExternalProxy.St Nat) "147" 7 1 true).2 = !true := by
  have hf : ∀ l, alookup (([] : KMap (List Nat))) "147" = some l → (1 : Nat) ∉ l ∧ l ≠ [] := by
    intro l hl
    simp [alookup] at hl
  have h := c6_send_and_wait_no_residual_handler (⟨none, [], []⟩ : MavLinkExternalProxy.St Nat) "147" 7 1 true hf
  exact ⟨hf, h.1, h.2.2.2⟩

/-- Claim C3 is false as stated.  Concrete input: index entries
id 1 of size 5000 and id 2 of size 9000, listed files `a` of size 9000
and `b` of size 1000, tolerance 4096.  Under the size-descending
correspondence the specification uses (entry 9000 against file 9000,
entry 5000 against file 1000) every file is within tolerance of its
corresponding entry and the counts match, yet the code, which walks the
entries in ascending id order, lets entry 1 (size 5000) consume file
`a` (size 9000, difference 4000 ≤ 4096) and then finds nothing within
tolerance for entry 2, so index id 2 maps to no file at all: the
produced mapping is not one-to-one on every index id. -/
theorem c3_counterexample :
    ([("a", (9000 : Int)), ("b", 1000)].length =
      [(1, (⟨5000, 11⟩ : MavLink.EntryInfo)), (2, ⟨9000, 22⟩)].length)
    ∧ (∀ i, i < 2 →
        |((MavLink.sortFilesDesc [("a", 9000), ("b", 1000)]).getD i ("", 0)).2 -
          ((MavLink.sortEntriesBySizeDesc [(1, ⟨5000, 11⟩), (2, ⟨9000, 22⟩)]).getD i (0, ⟨0, 0⟩)).2.size| ≤ 4096)
    ∧ MavLink._match_ls_to_entries [("a", 9000), ("b", 1000)] [(1, ⟨5000, 11⟩), (2, ⟨9000, 22⟩)] 4096 =
        Except.ok [(1, "a", 9000, 11)]
    ∧ (2 : Nat) ∈ ([(1, (⟨5000, 11⟩ : MavLink.EntryInfo)), (2, ⟨9000, 22⟩)].map Prod.fst)
    ∧ (2 : Nat) ∉ ([(1, "a", (9000 : Int), (11 : Int))].map (fun r => r.1)) := by
  refine ⟨rfl, by decide, rfl, by decide, by decide⟩

/-- Claim C3, amended.  The code sorts the files by size descending but
the index entries by id ascending (`sorted(entry_dict.items())` sorts
dict items by key), so the correspondence that guarantees a total
one-to-one mapping aligns the id-ascending entry list with the
size-descending file list: when the counts match and every file is
within the byte tolerance of the entry at the same aligned position,
matching succeeds and pairs the i-th entry with the i-th file — every
index id maps to a distinct file, each file consumed exactly once.  For
any count mismatch, matching raises the count-mismatch `ValueError`
before producing any mapping. -/
theorem c3_amended_matching (files : List (String × Int)) (entries : List (Nat × MavLink.EntryInfo)) (t : Int) :
    (files.length = entries.length →
      (∀ i, i < entries.length →
        |((MavLink.sortFilesDesc files).getD i ("", 0)).2 -
          ((MavLink.sortEntriesById entries).getD i (0, ⟨0, 0⟩)).2.size| ≤ t) →
      MavLink._match_ls_to_entries files entries t =
        Except.ok (List.zipWith (fun e f => (e.1, f.1, f.2, e.2.utc))
          (MavLink.sortEntriesById entries) (MavLink.sortFilesDesc files))
      ∧ (List.zipWith (fun e f => (e.1, f.1, f.2, e.2.utc))
          (MavLink.sortEntriesById entries) (MavLink.sortFilesDesc files)).map (fun r => r.1) =
          (MavLink.sortEntriesById entries).map Prod.fst
      ∧ (List.zipWith (fun e f => (e.1, f.1, f.2, e.2.utc))
          (MavLink.sortEntriesById entries) (MavLink.sortFilesDesc files)).map (fun r => (r.2.1, r.2.2.1)) =
          MavLink.sortFilesDesc files)
    ∧ (files.length ≠ entries.length →
      MavLink._match_ls_to_entries files entries t =
        Except.error "ls and entry counts differ; cannot match safely") := by
  have hfl : (MavLink.sortFilesDesc files).length = files.length :=
    MavLink.length_sortFilesDesc files
  have hel : (MavLink.sortEntriesById entries).length = entries.length :=
    MavLink.length_sortEntriesById entries
  constructor
  · intro hlen halign
    have hlen' : (MavLink.sortEntriesById entries).length = (MavLink.sortFilesDesc files).length := by
      rw [hfl, hel, hlen]
    have halign' : ∀ i, i < (MavLink.sortEntriesById entries).length →
        |((MavLink.sortFilesDesc files).getD i ("", 0)).2 -
          ((MavLink.sortEntriesById entries).getD i (0, ⟨0, 0⟩)).2.size| ≤ t := by
      intro i hi
      exact halign i (hel ▸ hi)
    have hmain := MavLink.matchLoop_aligned (MavLink.sortEntriesById entries)
      (MavLink.sortFilesDesc files) t hlen' halign'
    refine ⟨?_, ?_, ?_⟩
    · unfold MavLink._match_ls_to_entries
      rw [if_neg (by rw [hfl, hel, hlen]; exact fun h => h rfl)]
      rw [hmain]
    · exact MavLink.zipWith_map_ids _ _ hlen'
    · exact MavLink.zipWith_map_files _ _ hlen'
  · intro hne
    unfold MavLink._match_ls_to_entries
    rw [if_pos (by rw [hfl, hel]; exact hne)]

/-- Witness for C3 (amended): one entry of size 1024 against one listed
file of the same size, tolerance 4096: the alignment hypothesis holds
and matching maps id 1 to the file. -/
theorem c3_amended_witness :
    ([("f1", (1024 : Int))].length = [(1, (⟨1024, 7⟩ : MavLink.EntryInfo))].length)
    ∧ MavLink._match_ls_to_entries [("f1", 1024)] [(1, ⟨1024, 7⟩)] 4096 =
        Except.ok [(1, "f1", 1024, 7)] := by
  refine ⟨rfl, ?_⟩
  have h := (c3_amended_matching [("f1", 1024)] [(1, ⟨1024, 7⟩)] 4096).1 rfl (by decide)
  rw [h.1]
  rfl

/-- Claim C4 is false as stated.  The code sorts only the file list by
size descending; the entry list is sorted by id ascending.  Concrete
input: entries id 1 of size 4000 and id 2 of size 8000, files `a` of
size 8000 and `b` of size 100, tolerance 4096.  The code (id order)
gives entry 1 the file `a` and leaves entry 2 unmatched; the
specification's algorithm (both lists size-descending) gives entry 2
the file `a` and entry 1 the file `b`.  The two mappings disagree on
id 2, so the code does not follow the claimed algorithm. -/
theorem c4_counterexample :
    MavLink._match_ls_to_entries [("a", 8000), ("b", 100)] [(1, ⟨4000, 1⟩), (2, ⟨8000, 2⟩)] 4096 =
      Except.ok [(1, "a", 8000, 1)]
    ∧ MavLink.spec_match_both_desc [("a", 8000), ("b", 100)] [(1, ⟨4000, 1⟩), (2, ⟨8000, 2⟩)] 4096 =
        Except.ok [(2, "a", 8000, 2), (1, "b", 100, 1)]
    ∧ (2 : Nat) ∉ ([(1, "a", (8000 : Int), (1 : Int))].map (fun r => r.1))
    ∧ (2 : Nat) ∈ ([(2, "a", (8000 : Int), (2 : Int)), (1, "b", (100 : Int), (1 : Int))].map (fun r => r.1)) := by
  refine ⟨rfl, rfl, by decide, by decide⟩

/-- Claim C4, amended.  The log-matching step follows this algorithm:
the file list is sorted by size in descending order and the index-entry
list by id in ascending order; then, for each index entry in that
order, the remaining files are scanned for the first file whose size is
within the fixed byte tolerance of the entry's size, that file is
removed from the scan list, and the (entry id, file) pair is recorded;
counts must match exactly up front.  The embedded code equals this
algorithm on every input. -/
theorem c4_amended_algorithm (files : List (String × Int)) (entries : List (Nat × MavLink.EntryInfo)) (t : Int) :
    MavLink._match_ls_to_entries files entries t = MavLink.amended_match_spec files entries t := by
  unfold MavLink._match_ls_to_entries MavLink.amended_match_spec
  by_cases h : (MavLink.sortFilesDesc files).length ≠ (MavLink.sortEntriesById entries).length
  · rw [if_pos h, if_pos h]
  · rw [if_neg h, if_neg h, MavLink.matchLoop_eq_matchScan]

/-- Claim C5 (evidence for the code bug).  In `_BlockingParser._ls` a
failed listing attempt sleeps and then soft-reconnects by calling
`self.__init__` with three arguments, while `__init__` requires four
(`endpoint, baud, debug, log_entries`), so the reconnect raises
`TypeError` and the retry loop aborts on the very first failure: the
error reaches the caller before the remaining attempts run, even when a
later attempt would have succeeded, contrary to the claim that an error
is raised only after all retry attempts have failed.  A first-attempt
success still returns its listing, and only a loop that actually
finishes all its iterations would raise the exhausted-retries
`RuntimeError`. -/
theorem c5_ls_reconnect_aborts_retry {α : Type} (rest : List (Option α)) :
    MavLink.ls_run (none :: rest) = Except.error MavLink.LsErr.typeErr
    ∧ (∀ v : α, MavLink.ls_run (some v :: rest) = Except.ok v)
    ∧ MavLink.ls_run ([] : List (Option α)) = Except.error MavLink.LsErr.runtimeExhausted := by
  exact ⟨rfl, fun v => rfl, rfl⟩

/-- Claim C7 is false as stated: `_io_write_once` iterates over every
bucket of the batch map, so a message queued under a key other than the
canonical `"mav"` key is transmitted too.  Concrete input: a batch map
holding only the bucket `"other"` with one message; the driver attempts
(and here succeeds) that transmission. -/
theorem c7_counterexample :
    MavLinkExternalProxy._io_write_once true (fun _ => true) [("other", [(42 : Nat)])] =
      [(42, true)]
    ∧ "other" ≠ "mav" := by
  exact ⟨rfl, by decide⟩

/-- Claim C7, amended.  The driver's write primitive transmits every
message in every bucket of the batch map, in bucket order then message
order; a per-message transmit failure (`ok m = false`) is logged and
the remaining messages of the batch are still attempted, and no failure
propagates out of the call (the function is total and its result never
depends on earlier failures). -/
theorem c7_amended_write_once_all_buckets {Msg : Type} (ok : Msg → Bool) (batches : KMap (List Msg)) :
    MavLinkExternalProxy._io_write_once true ok batches =
      batches.flatMap (fun kv => kv.2.map (fun m => (m, ok m))) := by
  have hinner : ∀ (msgs : List Msg) (acc : List (Msg × Bool)),
      msgs.foldl (fun a m => a ++ [(m, ok m)]) acc = acc ++ msgs.map (fun m => (m, ok m)) := by
    intro msgs
    induction msgs with
    | nil => intro acc; simp
    | cons m ms ih => intro acc; simp [List.foldl, ih]
  have houter : ∀ (bs : KMap (List Msg)) (acc : List (Msg × Bool)),
      bs.foldl (fun acc kv => kv.2.foldl (fun a m => a ++ [(m, ok m)]) acc) acc =
        acc ++ bs.flatMap (fun kv => kv.2.map (fun m => (m, ok m))) := by
    intro bs
    induction bs with
    | nil => intro acc; simp
    | cons kv rest ih =>
        intro acc
        rw [List.foldl_cons, hinner kv.2 acc, ih]
        simp [List.append_assoc]
  show (if true = false then [] else _) = _
  rw [if_neg (by decide)]
  simpa using houter batches []

/-- Claim C8 (settled against the spec model `get_px4_time`, the parser
method being absent from the sources).  The helper extracts the
timestamp from the first present field in the priority order
`time_utc`, `time_boot_ms`, `time_usec`, `_timestamp`, converting
boot-relative values to absolute seconds from the local capture time;
it raises the validation error when no timestamp-bearing field is
present, and the timeout error when no reply arrives within the
bound. -/
theorem c8_get_px4_time_priority_and_errors (captureBoot : Int) :
    MavLink.get_px4_time none captureBoot = Except.error MavLink.PxErr.timeout
    ∧ (∀ t b u ts, MavLink.get_px4_time (some ⟨some t, b, u, ts⟩) captureBoot =
        Except.ok ⟨t, "time_utc"⟩)
    ∧ (∀ b u ts, MavLink.get_px4_time (some ⟨none, some b, u, ts⟩) captureBoot =
        Except.ok ⟨captureBoot + b / 1000, "time_boot_ms"⟩)
    ∧ (∀ u ts, MavLink.get_px4_time (some ⟨none, none, some u, ts⟩) captureBoot =
        Except.ok ⟨captureBoot + u / 1000000, "time_usec"⟩)
    ∧ (∀ ts, MavLink.get_px4_time (some ⟨none, none, none, some ts⟩) captureBoot =
        Except.ok ⟨ts, "_timestamp"⟩)
    ∧ MavLink.get_px4_time (some ⟨none, none, none, none⟩) captureBoot =
        Except.error MavLink.PxErr.validation := by
  exact ⟨rfl, fun t b u ts => rfl, fun b u ts => rfl, fun u ts => rfl, fun ts => rfl, rfl⟩

/-- Claim C10.  When the directory walk yields zero candidate files,
`list_ulogs` returns the empty list without raising, for every stored
index — including a non-empty one, for which the bypassed
count-mismatch check would have raised. -/
theorem c10_empty_walk_returns_empty (entries : List (Nat × MavLink.EntryInfo)) :
    MavLink.list_ulogs [] entries = Except.ok []
    ∧ (entries ≠ [] →
      MavLink._match_ls_to_entries [] entries 4096 =
        Except.error "ls and entry counts differ; cannot match safely") := by
  constructor
  · rfl
  · intro hne
    unfold MavLink._match_ls_to_entries
    rw [if_pos ?_]
    rw [MavLink.length_sortEntriesById]
    show ([] : List (String × Int)).length ≠ entries.length
    simpa using fun h => hne (List.length_eq_zero.mp h.symm)

/-- Witness for C10: a non-empty index of one entry; the walk-empty
path returns the empty list while the matching step alone would have
raised the count-mismatch error. -/
theorem c10_witness :
    ([(1, (⟨100, 5⟩ : MavLink.EntryInfo))] ≠ ([] : List (Nat × MavLink.EntryInfo)))
    ∧ MavLink.list_ulogs [] [(1, ⟨100, 5⟩)] = Except.ok []
    ∧ MavLink._match_ls_to_entries [] [(1, ⟨100, 5⟩)] 4096 =
        Except.error "ls and entry counts differ; cannot match safely" := by
  have h := c10_empty_walk_returns_empty [(1, ⟨100, 5⟩)]
  exact ⟨by simp, h.1, h.2 (by simp)⟩

end PetalApp
